import Mathlib

set_option maxRecDepth 4000

/-!
Shallow embedding of the CHIP-8 emulator core (src/src/chip8emulator/)
together with proofs checking the specification's claims against it.

Modelling conventions used throughout:
* `f64` timestamps and intervals are modelled as rationals;
* `u8`/`u16` wrapping arithmetic is modelled with `% 256` / `% 65536`
  (release-mode wrapping semantics of the source language);
* panics (assertion failures, `expect` on an empty stack, out-of-range
  key indices) are modelled with `Option`/`Except`, where the `Except`
  error value carries the machine state at the moment of the fault;
* out-of-range list reads/writes use `List.getD` / `List.set` defaults,
  and theorems that depend on in-bounds accesses carry explicit
  in-bounds hypotheses.
-/

namespace Chip8

/-- Embedding of opcode.rs `get_nibble`: the 4-bit field number `i`
(0 = most significant) of a 16-bit instruction word. -/
def get_nibble (op i : Nat) : Nat := op / 16 ^ (3 - i) % 16

/-- Embedding of opcode.rs `get_nibbles_from`: the low `4 - i` nibbles of
the word (mask-and-shift in the source, arithmetically `op % 16 ^ (4 - i)`). -/
def get_nibbles_from (op i : Nat) : Nat := op % 16 ^ (4 - i)

/-- Embedding of graphics.rs `Graphics`: a monochrome bit grid stored
row-major (`FixedBitSet` becomes a list of booleans) plus the dirty flag. -/
structure Graphics where
  width : Nat
  height : Nat
  display : List Bool
  changed : Bool
deriving DecidableEq

/-- Embedding of graphics.rs `Graphics::new`. -/
def Graphics.new (width height : Nat) : Graphics :=
  { width := width, height := height
    display := List.replicate (width * height) false, changed := true }

/-- Embedding of graphics.rs `Graphics::toggle`: flips the cell at
`(x, y)` and returns whether it was on before the call. -/
def Graphics.toggle (g : Graphics) (x y : Nat) : Graphics × Bool :=
  let index := y * g.width + x
  let res := g.display.getD index false
  ({ g with display := g.display.set index (!res), changed := true }, res)

/-- Embedding of graphics.rs `Graphics::get_pixel`. -/
def Graphics.get_pixel (g : Graphics) (x y : Nat) : Bool :=
  g.display.getD (y * g.width + x) false

/-- Embedding of graphics.rs `Graphics::clear`: every cell off, dirty set. -/
def Graphics.clear (g : Graphics) : Graphics :=
  { g with display := List.replicate g.display.length false, changed := true }

/-- Embedding of timer.rs `Timer`: an 8-bit countdown value plus the
previous-consumption timestamp (`f64` modelled as `ℚ`). -/
structure Timer where
  value : Nat
  prev_time : ℚ
deriving DecidableEq

/-- Embedding of timer.rs `Timer::INTERVAL` (1000.0 / 60.0 milliseconds). -/
def Timer.INTERVAL : ℚ := 1000 / 60

/-- The fractional tick count `(current_time - prev_time) / INTERVAL`
computed by timer.rs `Timer::step`. -/
def Timer.ticks (t : Timer) (now : ℚ) : ℚ := (now - t.prev_time) / Timer.INTERVAL

/-- The whole-tick count a call to timer.rs `Timer::step` consumes
(`ticks.floor`, nonnegative under the step's own assertion). -/
def Timer.stepTicks (t : Timer) (now : ℚ) : Nat := (t.ticks now).floor.toNat

/-- Embedding of timer.rs `Timer::step`: subtract the elapsed whole ticks
from the value (the `as u8` cast saturates at 255, `saturating_sub` floors
at 0, which truncated subtraction on `Nat` models exactly) and advance
`prev_time` by whole intervals only. -/
def Timer.step (t : Timer) (now : ℚ) : Timer :=
  { value := t.value - min (t.stepTicks now) 255
    prev_time := t.prev_time + ((t.ticks now).floor : ℚ) * Timer.INTERVAL }

/-- Embedding of timer.rs `Timer::set_value`. -/
def Timer.set_value (t : Timer) (v : Nat) : Timer := { t with value := v }

/-- Modelled from the spec: the two-argument rate-accumulator `Timer`
(`new(current_time, interval)`, `step(now) -> u32`, `set_interval`) that
chip8timer.rs and mod.rs use is not present under src/ (src's timer.rs is
the earlier countdown revision), so it is modelled from spec section 4.1:
`consume(now)` returns the number of whole intervals elapsed since the
reference time and advances the reference time by exactly that many whole
intervals. -/
structure RateAccumulator where
  prev_time : ℚ
  interval : ℚ
deriving DecidableEq

/-- Modelled from the spec (section 4.1): the tick count returned by one
`consume`/`step` call of the rate accumulator. -/
def RateAccumulator.count (t : RateAccumulator) (now : ℚ) : Nat :=
  ((now - t.prev_time) / t.interval).floor.toNat

/-- Modelled from the spec (section 4.1): `consume(now)` returns the
whole-tick count and the accumulator with its reference time advanced by
that many whole intervals. -/
def RateAccumulator.consume (t : RateAccumulator) (now : ℚ) : Nat × RateAccumulator :=
  (t.count now, { t with prev_time := t.prev_time + (t.count now : ℚ) * t.interval })

/-- Embedding of chip8timer.rs `Chip8Timer`: an 8-bit countdown value on
top of one rate accumulator fixed at 60 Hz. -/
structure Chip8Timer where
  value : Nat
  timer : RateAccumulator
deriving DecidableEq

/-- Embedding of chip8timer.rs `Chip8Timer::new`. -/
def Chip8Timer.new (current_time : ℚ) : Chip8Timer :=
  { value := 0, timer := { prev_time := current_time, interval := 1000 / 60 } }

/-- Embedding of chip8timer.rs `Chip8Timer::step`: consume the elapsed
whole 60 Hz periods, clamp at `u8::MAX`, saturating-subtract from value. -/
def Chip8Timer.step (c : Chip8Timer) (now : ℚ) : Chip8Timer :=
  let p := c.timer.consume now
  { value := c.value - min p.1 255, timer := p.2 }

/-- Embedding of chip8timer.rs `Chip8Timer::set_value`. -/
def Chip8Timer.set_value (c : Chip8Timer) (v : Nat) : Chip8Timer := { c with value := v }

/-- Embedding of mod.rs `FONT_MEMORY` (16 glyphs, 5 bytes each). -/
def FONT_MEMORY : List Nat :=
  [0xF0, 0x90, 0x90, 0x90, 0xF0,
   0x20, 0x60, 0x20, 0x20, 0x70,
   0xF0, 0x10, 0xF0, 0x80, 0xF0,
   0xF0, 0x10, 0xF0, 0x10, 0xF0,
   0x90, 0x90, 0xF0, 0x10, 0x10,
   0xF0, 0x80, 0xF0, 0x10, 0xF0,
   0xF0, 0x80, 0xF0, 0x90, 0xF0,
   0xF0, 0x10, 0x20, 0x40, 0x40,
   0xF0, 0x90, 0xF0, 0x90, 0xF0,
   0xF0, 0x90, 0xF0, 0x10, 0xF0,
   0xF0, 0x90, 0xF0, 0x90, 0x90,
   0xE0, 0x90, 0xE0, 0x90, 0xE0,
   0xF0, 0x80, 0x80, 0x80, 0xF0,
   0xE0, 0x90, 0x90, 0x90, 0xE0,
   0xF0, 0x80, 0xF0, 0x80, 0xF0,
   0xF0, 0x80, 0xF0, 0x80, 0x80]

/-- Embedding of mod.rs `Chip8Emulator`: the full machine state.  The
`KeyPad` struct of keypad.rs is inlined as the 16-entry boolean list
`keypad`; the stack is a list with its head as the top (`ArrayVec`
push/pop at the back). -/
structure Chip8Emulator where
  memory : List Nat
  V : List Nat
  I : Nat
  pc : Nat
  gfx : Graphics
  delay_timer : Chip8Timer
  sound_timer : Chip8Timer
  stack : List Nat
  keypad : List Bool
  timer : RateAccumulator
  waiting_for_keypress : Option Nat
deriving DecidableEq

/-- Embedding of mod.rs `Chip8Emulator::new`: zeroed state with the font
table copied in at 0x050, `pc` at 0x200, instruction clock at 800 Hz. -/
def Chip8Emulator.new (current_time : ℚ) : Chip8Emulator :=
  { memory := List.replicate 0x50 0 ++ FONT_MEMORY ++ List.replicate (4096 - 0x50 - 80) 0
    V := List.replicate 16 0
    I := 0
    pc := 0x200
    gfx := Graphics.new 64 32
    delay_timer := Chip8Timer.new current_time
    sound_timer := Chip8Timer.new current_time
    stack := []
    keypad := List.replicate 16 false
    timer := { prev_time := current_time, interval := 1000 / 800 }
    waiting_for_keypress := none }

namespace Chip8Emulator

/-- Embedding of mod.rs `clear_screen`. -/
def clear_screen (s : Chip8Emulator) : Chip8Emulator := { s with gfx := s.gfx.clear }

/-- Embedding of mod.rs `return_subroutine`: `pop().expect(..)` — popping
an empty stack is a panic, modelled as `none`. -/
def return_subroutine (s : Chip8Emulator) : Option Chip8Emulator :=
  match s.stack with
  | [] => none
  | a :: rest => some { s with pc := a, stack := rest }

/-- Embedding of mod.rs `jump_to`. -/
def jump_to (s : Chip8Emulator) (address : Nat) : Chip8Emulator := { s with pc := address }

/-- Embedding of mod.rs `execute_subroutine`: push `pc`, jump. -/
def execute_subroutine (s : Chip8Emulator) (address : Nat) : Chip8Emulator :=
  jump_to { s with stack := s.pc :: s.stack } address

/-- Embedding of mod.rs `skip_if_eq`. -/
def skip_if_eq (s : Chip8Emulator) (x value : Nat) : Chip8Emulator :=
  if s.V.getD x 0 = value then { s with pc := (s.pc + 2) % 65536 } else s

/-- Embedding of mod.rs `skip_if_ne`. -/
def skip_if_ne (s : Chip8Emulator) (x value : Nat) : Chip8Emulator :=
  if s.V.getD x 0 ≠ value then { s with pc := (s.pc + 2) % 65536 } else s

/-- Embedding of mod.rs `skip_if_eq_reg`. -/
def skip_if_eq_reg (s : Chip8Emulator) (x y : Nat) : Chip8Emulator :=
  if s.V.getD x 0 = s.V.getD y 0 then { s with pc := (s.pc + 2) % 65536 } else s

/-- Embedding of mod.rs `skip_if_ne_reg`. -/
def skip_if_ne_reg (s : Chip8Emulator) (x y : Nat) : Chip8Emulator :=
  if s.V.getD x 0 ≠ s.V.getD y 0 then { s with pc := (s.pc + 2) % 65536 } else s

/-- Embedding of mod.rs `store`. -/
def store (s : Chip8Emulator) (x val : Nat) : Chip8Emulator :=
  { s with V := s.V.set x val }

/-- Embedding of mod.rs `add` (opcode 7xkk): `self.V[x] += val`, an `u8`
addition, wrapping modulo 256 in release semantics. -/
def add (s : Chip8Emulator) (x val : Nat) : Chip8Emulator :=
  { s with V := s.V.set x ((s.V.getD x 0 + val) % 256) }

/-- Embedding of mod.rs `store_reg`. -/
def store_reg (s : Chip8Emulator) (x y : Nat) : Chip8Emulator :=
  { s with V := s.V.set x (s.V.getD y 0) }

/-- Embedding of mod.rs `store_reg_or`. -/
def store_reg_or (s : Chip8Emulator) (x y : Nat) : Chip8Emulator :=
  { s with V := s.V.set x (s.V.getD x 0 ||| s.V.getD y 0) }

/-- Embedding of mod.rs `store_reg_and`. -/
def store_reg_and (s : Chip8Emulator) (x y : Nat) : Chip8Emulator :=
  { s with V := s.V.set x (s.V.getD x 0 &&& s.V.getD y 0) }

/-- Embedding of mod.rs `store_reg_xor`. -/
def store_reg_xor (s : Chip8Emulator) (x y : Nat) : Chip8Emulator :=
  { s with V := s.V.set x (s.V.getD x 0 ^^^ s.V.getD y 0) }

/-- Embedding of mod.rs `add_reg`: `overflowing_add`, then `V[0xf]`
receives the carry (written after the sum, as in the source). -/
def add_reg (s : Chip8Emulator) (x y : Nat) : Chip8Emulator :=
  let sum := s.V.getD x 0 + s.V.getD y 0
  { s with V := (s.V.set x (sum % 256)).set 15 (if 256 ≤ sum then 1 else 0) }

/-- Embedding of mod.rs `sub_reg`: wrapping `Vx - Vy`, `V[0xf]` is the
negated borrow. -/
def sub_reg (s : Chip8Emulator) (x y : Nat) : Chip8Emulator :=
  let a := s.V.getD x 0
  let b := s.V.getD y 0
  { s with V := (s.V.set x ((a + 256 - b) % 256)).set 15 (if a < b then 0 else 1) }

/-- Embedding of mod.rs `store_reg_shr1`: `V[0xf] = V[x] & 1` and then
`V[x] >>= 1` (the second line reads the registers after the first wrote
`V[0xf]`, exactly as the two source statements do). -/
def store_reg_shr1 (s : Chip8Emulator) (x y : Nat) : Chip8Emulator :=
  let v1 := s.V.set 15 (s.V.getD x 0 &&& 1)
  { s with V := v1.set x (v1.getD x 0 / 2) }

/-- Embedding of mod.rs `store_reg_sub`: wrapping `Vy - Vx`, `V[0xf]` is
the negated borrow. -/
def store_reg_sub (s : Chip8Emulator) (x y : Nat) : Chip8Emulator :=
  let a := s.V.getD x 0
  let b := s.V.getD y 0
  { s with V := (s.V.set x ((b + 256 - a) % 256)).set 15 (if b < a then 0 else 1) }

/-- Embedding of mod.rs `store_reg_shl1`: `V[0xf] = V[x] & 0x80` and then
`V[x] <<= 1` (wrapping shift on `u8`). -/
def store_reg_shl1 (s : Chip8Emulator) (x y : Nat) : Chip8Emulator :=
  let v1 := s.V.set 15 (s.V.getD x 0 &&& 0x80)
  { s with V := v1.set x (v1.getD x 0 * 2 % 256) }

/-- Embedding of mod.rs `store_address`. -/
def store_address (s : Chip8Emulator) (address : Nat) : Chip8Emulator :=
  { s with I := address }

/-- Embedding of mod.rs `jump_to_plus_v0`. -/
def jump_to_plus_v0 (s : Chip8Emulator) (address : Nat) : Chip8Emulator :=
  jump_to s ((address + s.V.getD 0 0) % 65536)

/-- Embedding of mod.rs `store_random`; the random byte produced by
`rand::random::<u8>()` is passed in as the oracle argument `rnd`. -/
def store_random (s : Chip8Emulator) (rnd x mask : Nat) : Chip8Emulator :=
  { s with V := s.V.set x (rnd % 256 &&& mask) }

/-- One pixel of mod.rs `draw_sprite`'s inner loop: if bit `7 - dx` of the
sprite row is set, XOR-toggle the wrapped cell and fold the collision
signal into `V[0xf]`. -/
def drawPixel (x y row : Nat) (s : Chip8Emulator) (dy dx : Nat) : Chip8Emulator :=
  if row / 2 ^ (7 - dx) % 2 = 1 then
    let r := s.gfx.toggle ((x + dx) % 64) ((y + dy) % 32)
    let s1 := { s with gfx := r.1 }
    if r.2 then { s1 with V := s1.V.set 15 1 } else s1
  else s

/-- One row of mod.rs `draw_sprite`: read the sprite byte at `I + dy` and
blit its eight bits. -/
def drawRow (x y : Nat) (s : Chip8Emulator) (dy : Nat) : Chip8Emulator :=
  let row := s.memory.getD (s.I + dy) 0
  (List.range 8).foldl (fun s1 dx => drawPixel x y row s1 dy dx) s

/-- Embedding of mod.rs `draw_sprite`: wrap the start position modulo the
screen size, clear `V[0xf]`, then blit `n` sprite rows. -/
def draw_sprite (s : Chip8Emulator) (xr yr n : Nat) : Chip8Emulator :=
  let x := s.V.getD xr 0 % 64
  let y := s.V.getD yr 0 % 32
  (List.range n).foldl (drawRow x y) { s with V := s.V.set 15 0 }

/-- Embedding of mod.rs `skip_if_pressed` (keypad.rs `is_key_down` read;
its key-range assertion is modelled by the total `getD` default). -/
def skip_if_pressed (s : Chip8Emulator) (x : Nat) : Chip8Emulator :=
  if s.keypad.getD (s.V.getD x 0) false then { s with pc := (s.pc + 2) % 65536 } else s

/-- Embedding of mod.rs `skip_if_not_pressed`. -/
def skip_if_not_pressed (s : Chip8Emulator) (x : Nat) : Chip8Emulator :=
  if s.keypad.getD (s.V.getD x 0) false then s else { s with pc := (s.pc + 2) % 65536 }

/-- Embedding of mod.rs `store_delay`. -/
def store_delay (s : Chip8Emulator) (x : Nat) : Chip8Emulator :=
  { s with V := s.V.set x s.delay_timer.value }

/-- Embedding of mod.rs `wait_for_keypress`: scan keys 0 through 0xF in
order, returning on the first one that is down; otherwise record the
awaited register.  The ordered scan is `List.find?` over `range 16`. -/
def wait_for_keypress (s : Chip8Emulator) (x : Nat) : Chip8Emulator :=
  match (List.range 16).find? (fun k => s.keypad.getD k false) with
  | some k => { s with V := s.V.set x k }
  | none => { s with waiting_for_keypress := some x }

/-- Embedding of mod.rs `set_delay`. -/
def set_delay (s : Chip8Emulator) (x : Nat) : Chip8Emulator :=
  { s with delay_timer := s.delay_timer.set_value (s.V.getD x 0) }

/-- Embedding of mod.rs `set_sound`. -/
def set_sound (s : Chip8Emulator) (x : Nat) : Chip8Emulator :=
  { s with sound_timer := s.sound_timer.set_value (s.V.getD x 0) }

/-- Embedding of mod.rs `add_to_I` (`u16` addition). -/
def add_to_I (s : Chip8Emulator) (x : Nat) : Chip8Emulator :=
  { s with I := (s.I + s.V.getD x 0) % 65536 }

/-- Embedding of mod.rs `store_digit_address`: font base 0x050 plus five
bytes per glyph. -/
def store_digit_address (s : Chip8Emulator) (x : Nat) : Chip8Emulator :=
  { s with I := 0x50 + s.V.getD x 0 * 5 }

/-- Embedding of mod.rs `store_bcd`. -/
def store_bcd (s : Chip8Emulator) (x : Nat) : Chip8Emulator :=
  let value := s.V.getD x 0
  let m := (s.memory.set s.I (value / 100)).set (s.I + 1) (value / 10 % 10)
  { s with memory := m.set (s.I + 2) (value % 10) }

/-- Embedding of mod.rs `store_regs_in_memory`: copy `V[0..=x]` to
`memory[I..=I+x]`, `I` unchanged. -/
def store_regs_in_memory (s : Chip8Emulator) (x : Nat) : Chip8Emulator :=
  { s with memory := (List.range (x + 1)).foldl (fun m i => m.set (s.I + i) (s.V.getD i 0)) s.memory }

/-- Embedding of mod.rs `store_memory_in_regs`: copy `memory[I..=I+x]` to
`V[0..=x]`, `I` unchanged. -/
def store_memory_in_regs (s : Chip8Emulator) (x : Nat) : Chip8Emulator :=
  { s with V := (List.range (x + 1)).foldl (fun v i => v.set i (s.memory.getD (s.I + i) 0)) s.V }

/-- Embedding of mod.rs `invalid_instruction`: reports to the host's
diagnostic channel (outside the core) and changes no machine state. -/
def invalid_instruction (s : Chip8Emulator) : Chip8Emulator := s

/-- The 16-bit word fetched by mod.rs `get_next_opcode`:
`(memory[pc] << 8) + memory[pc + 1]`. -/
def fetched (s : Chip8Emulator) : Nat :=
  s.memory.getD s.pc 0 * 256 + s.memory.getD (s.pc + 1) 0

/-- Embedding of the dispatch `match` of mod.rs `execute_next_instruction`
(the nested `match` arms become an equivalent chain of equality tests, in
source order).  `rnd` is the random-byte oracle for opcode family 0xC. -/
def dispatch (rnd op : Nat) (s : Chip8Emulator) : Option Chip8Emulator :=
  let n0 := get_nibble op 0
  if n0 = 0 then
    let rest := get_nibbles_from op 1
    if rest = 0x0e0 then some (clear_screen s)
    else if rest = 0x0ee then return_subroutine s
    else some (execute_subroutine s rest)
  else if n0 = 1 then some (jump_to s (get_nibbles_from op 1))
  else if n0 = 2 then some (execute_subroutine s (get_nibbles_from op 1))
  else if n0 = 3 then some (skip_if_eq s (get_nibble op 1) (get_nibbles_from op 2))
  else if n0 = 4 then some (skip_if_ne s (get_nibble op 1) (get_nibbles_from op 2))
  else if n0 = 5 then
    if get_nibble op 3 = 0 then some (skip_if_eq_reg s (get_nibble op 1) (get_nibble op 2))
    else some (invalid_instruction s)
  else if n0 = 6 then some (store s (get_nibble op 1) (get_nibbles_from op 2))
  else if n0 = 7 then some (add s (get_nibble op 1) (get_nibbles_from op 2))
  else if n0 = 8 then
    let n3 := get_nibble op 3
    if n3 = 0 then some (store_reg s (get_nibble op 1) (get_nibble op 2))
    else if n3 = 1 then some (store_reg_or s (get_nibble op 1) (get_nibble op 2))
    else if n3 = 2 then some (store_reg_and s (get_nibble op 1) (get_nibble op 2))
    else if n3 = 3 then some (store_reg_xor s (get_nibble op 1) (get_nibble op 2))
    else if n3 = 4 then some (add_reg s (get_nibble op 1) (get_nibble op 2))
    else if n3 = 5 then some (sub_reg s (get_nibble op 1) (get_nibble op 2))
    else if n3 = 6 then some (store_reg_shr1 s (get_nibble op 1) (get_nibble op 2))
    else if n3 = 7 then some (store_reg_sub s (get_nibble op 1) (get_nibble op 2))
    else if n3 = 14 then some (store_reg_shl1 s (get_nibble op 1) (get_nibble op 2))
    else some (invalid_instruction s)
  else if n0 = 9 then
    if get_nibble op 3 = 0 then some (skip_if_ne_reg s (get_nibble op 1) (get_nibble op 2))
    else some (invalid_instruction s)
  else if n0 = 10 then some (store_address s (get_nibbles_from op 1))
  else if n0 = 11 then some (jump_to_plus_v0 s (get_nibbles_from op 1))
  else if n0 = 12 then some (store_random s rnd (get_nibble op 1) (get_nibbles_from op 2))
  else if n0 = 13 then some (draw_sprite s (get_nibble op 1) (get_nibble op 2) (get_nibble op 3))
  else if n0 = 14 then
    let b := get_nibbles_from op 2
    if b = 0x9e then some (skip_if_pressed s (get_nibble op 1))
    else if b = 0xa1 then some (skip_if_not_pressed s (get_nibble op 1))
    else some (invalid_instruction s)
  else if n0 = 15 then
    let b := get_nibbles_from op 2
    if b = 0x07 then some (store_delay s (get_nibble op 1))
    else if b = 0x0a then some (wait_for_keypress s (get_nibble op 1))
    else if b = 0x15 then some (set_delay s (get_nibble op 1))
    else if b = 0x18 then some (set_sound s (get_nibble op 1))
    else if b = 0x1e then some (add_to_I s (get_nibble op 1))
    else if b = 0x29 then some (store_digit_address s (get_nibble op 1))
    else if b = 0x33 then some (store_bcd s (get_nibble op 1))
    else if b = 0x55 then some (store_regs_in_memory s (get_nibble op 1))
    else if b = 0x65 then some (store_memory_in_regs s (get_nibble op 1))
    else some (invalid_instruction s)
  else some (invalid_instruction s)

/-- Embedding of mod.rs `execute_next_instruction`: fetch (advancing `pc`
by 2, a `u16` addition) and dispatch. -/
def execute_next_instruction (rnd : Nat) (s : Chip8Emulator) : Option Chip8Emulator :=
  dispatch rnd (fetched s) { s with pc := (s.pc + 2) % 65536 }

/-- The instruction loop of mod.rs `tick`: run the given number of
iterations, re-checking the blocking sub-state before each instruction;
`rnds` supplies the random byte for each iteration. -/
def tick_loop (rnds : Nat → Nat) : Nat → Chip8Emulator → Option Chip8Emulator
  | 0, s => some s
  | n + 1, s =>
    if s.waiting_for_keypress = none then
      (execute_next_instruction (rnds n) s).bind (tick_loop rnds n)
    else tick_loop rnds n s

/-- Embedding of mod.rs `tick`: step the delay and sound timers, ask the
instruction clock for the tick count, and run the instruction loop. -/
def tick (rnds : Nat → Nat) (s : Chip8Emulator) (now : ℚ) : Option Chip8Emulator :=
  let s1 := { s with delay_timer := s.delay_timer.step now
                     sound_timer := s.sound_timer.step now }
  let p := s1.timer.consume now
  tick_loop rnds p.1 { s1 with timer := p.2 }

/-- Embedding of mod.rs `keydown`: first resolve a pending wait-for-key
(`Option::take` clears it and the awaited register receives the raw key),
then keypad.rs `KeyPad::keydown`, whose `key <= 0xF` assertion panics on
an out-of-range key — modelled as `Except.error` carrying the state as
already mutated at the moment of the fault. -/
def keydown (s : Chip8Emulator) (key : Nat) : Except Chip8Emulator Chip8Emulator :=
  let s1 := match s.waiting_for_keypress with
    | some x => { s with V := s.V.set x key, waiting_for_keypress := none }
    | none => s
  if key ≤ 15 then Except.ok { s1 with keypad := s1.keypad.set key true }
  else Except.error s1

/-- Embedding of mod.rs `keyup` (keypad.rs `KeyPad::keyup` with its
key-range assertion). -/
def keyup (s : Chip8Emulator) (key : Nat) : Except Chip8Emulator Chip8Emulator :=
  if key ≤ 15 then Except.ok { s with keypad := s.keypad.set key false }
  else Except.error s

/-- One XOR-toggle of a flat display cell with the collision signal folded
into `V[0xf]` — the effect of one set sprite bit inside `draw_sprite`,
expressed on the flat cell index `c = row * width + column`. -/
def toggleCell (s : Chip8Emulator) (c : Nat) : Chip8Emulator :=
  let res := s.gfx.display.getD c false
  let s1 := { s with gfx := { s.gfx with display := s.gfx.display.set c (!res), changed := true } }
  if res then { s1 with V := s1.V.set 15 1 } else s1

/-- Folding `toggleCell` over a list of flat cell indices. -/
def toggleCells (s : Chip8Emulator) (cs : List Nat) : Chip8Emulator :=
  cs.foldl toggleCell s

end Chip8Emulator

/-- The flat display index touched by sprite bit `(dy, dx)` of a draw at
wrapped origin `(x, y)`: coordinates wrap modulo 64 × 32 as in
`draw_sprite`, and the row-major index is the one `Graphics.toggle`
computes for a 64-wide display. -/
def cellIndex (x y dy dx : Nat) : Nat := (y + dy) % 32 * 64 + (x + dx) % 64

/-- The flat display indices of the set bits in sprite row `dy` (sprite
byte `mem[i + dy]`), in the order `draw_sprite`'s inner loop visits them. -/
def rowCells (mem : List Nat) (i x y dy : Nat) : List Nat :=
  ((List.range 8).filter (fun dx => mem.getD (i + dy) 0 / 2 ^ (7 - dx) % 2 = 1)).map
    (cellIndex x y dy)

/-- The flat display indices of all set bits of an `n`-row sprite at
`mem[i..i+n)`, in the order `draw_sprite` visits them. -/
def spriteCells (mem : List Nat) (i x y n : Nat) : List Nat :=
  (List.range n).flatMap (rowCells mem i x y)

/-- The run of timer.rs `Timer::step` over a sequence of timestamps,
returning the final timer and the total number of whole ticks the calls
consumed. -/
def Timer.run : Timer → List ℚ → Timer × Nat
  | t, [] => (t, 0)
  | t, now :: rest =>
    let n := t.stepTicks now
    let p := Timer.run (t.step now) rest
    (p.1, n + p.2)

/-- A concrete machine for exercising the draw instruction: the sprite
bytes 0xF0, 0x0F, 0xAA at addresses 5..7 (`I = 5`) and draw position
(10, 10) in `V0`/`V1`, mirroring the repository's `test_draw_sprite`. -/
def sampleDrawState : Chip8Emulator :=
  { Chip8Emulator.new 0 with
      V := ((List.replicate 16 0).set 0 10).set 1 10
      I := 5
      memory := (((Chip8Emulator.new 0).memory.set 5 0xF0).set 6 0x0F).set 7 0xAA }

/-- An instruction word whose secondary selector matches no arm of the
dispatch `match` in mod.rs `execute_next_instruction` (families 5, 8, 9,
E, F with an unhandled bottom nibble or bottom byte). -/
def invalidOpcode (op : Nat) : Prop :=
  (get_nibble op 0 = 5 ∧ get_nibble op 3 ≠ 0) ∨
  (get_nibble op 0 = 8 ∧ get_nibble op 3 ≠ 0 ∧ get_nibble op 3 ≠ 1 ∧
    get_nibble op 3 ≠ 2 ∧ get_nibble op 3 ≠ 3 ∧ get_nibble op 3 ≠ 4 ∧
    get_nibble op 3 ≠ 5 ∧ get_nibble op 3 ≠ 6 ∧ get_nibble op 3 ≠ 7 ∧
    get_nibble op 3 ≠ 14) ∨
  (get_nibble op 0 = 9 ∧ get_nibble op 3 ≠ 0) ∨
  (get_nibble op 0 = 14 ∧ get_nibbles_from op 2 ≠ 0x9e ∧ get_nibbles_from op 2 ≠ 0xa1) ∨
  (get_nibble op 0 = 15 ∧ get_nibbles_from op 2 ≠ 0x07 ∧ get_nibbles_from op 2 ≠ 0x0a ∧
    get_nibbles_from op 2 ≠ 0x15 ∧ get_nibbles_from op 2 ≠ 0x18 ∧
    get_nibbles_from op 2 ≠ 0x1e ∧ get_nibbles_from op 2 ≠ 0x29 ∧
    get_nibbles_from op 2 ≠ 0x33 ∧ get_nibbles_from op 2 ≠ 0x55 ∧
    get_nibbles_from op 2 ≠ 0x65)

instance (op : Nat) : Decidable (invalidOpcode op) := by
  unfold invalidOpcode
  infer_instance

/-! General helper lemmas about list reads and writes. -/

theorem getD_set_eq {α : Type} {l : List α} {i : Nat} (a d : α) (h : i < l.length) :
    (l.set i a).getD i d = a := by
  simp [List.getD_eq_getElem?_getD, List.getElem?_set_eq_of_lt, h]

theorem getD_set_ne {α : Type} {l : List α} {i j : Nat} (a d : α) (h : i ≠ j) :
    (l.set i a).getD j d = l.getD j d := by
  simp [List.getD_eq_getElem?_getD, List.getElem?_set_ne, h]

theorem foldl_invariant {α β : Type} (f : β → α → β) (P : β → Prop)
    (hf : ∀ s a, P s → P (f s a)) : ∀ (l : List α) (s : β), P s → P (l.foldl f s) := by
  intro l
  induction l with
  | nil => intro s hs; exact hs
  | cons a l ih => intro s hs; exact ih (f s a) (hf s a hs)

theorem foldl_preserves {α β γ : Type} (f : β → α → β) (g : β → γ)
    (hf : ∀ s a, g (f s a) = g s) : ∀ (l : List α) (s : β), g (l.foldl f s) = g s := by
  intro l
  induction l with
  | nil => intro s; rfl
  | cons a l ih => intro s; rw [List.foldl_cons, ih, hf]

/-! Claims C3, C4, C7, C10. -/

/-- Claim C3 (code bug): with the top bit of the source register set
(`V0 = 0x80`), the shl instruction stores `V[x] & 0x80 = 128` into `VF`
instead of the top-bit value `0x80 / 2^7 = 1` that the claim (and the
repository's own `test_arithmetic`, which asserts `V[0xf] == 1` after a
shl of a top-bit-set source) requires; `Vx` itself does receive
`source << 1 (mod 256) = 0`. -/
theorem shl_flag_is_masked_byte_not_top_bit :
    (Chip8Emulator.store_reg_shl1
        { Chip8Emulator.new 0 with V := (List.replicate 16 0).set 0 0x80 } 0 1).V.getD 15 0
      = 128 ∧
    (Chip8Emulator.store_reg_shl1
        { Chip8Emulator.new 0 with V := (List.replicate 16 0).set 0 0x80 } 0 1).V.getD 0 0
      = 0 ∧
    (0x80 : Nat) / 2 ^ 7 = 1 ∧ (128 : Nat) ≠ 1 := by
  refine ⟨by decide, by decide, by decide, by decide⟩

/-- Claim C4: the add-immediate instruction (opcode 7xkk) sets `Vx` to
`(Vx + kk) % 256` — wrapping on 8-bit overflow, never faulting — and
leaves every other register (hence `VF` whenever `x ≠ 0xF`) and every
other machine-state component unchanged. -/
theorem add_immediate_wraps (s : Chip8Emulator) (x kk j : Nat)
    (hx : x < 16) (hV : s.V.length = 16) (hj : j ≠ x) :
    (s.add x kk).V.getD x 0 = (s.V.getD x 0 + kk) % 256 ∧
    (s.add x kk).V.getD j 0 = s.V.getD j 0 ∧
    (s.add x kk).V.length = s.V.length ∧
    (s.add x kk).memory = s.memory ∧ (s.add x kk).pc = s.pc ∧
    (s.add x kk).I = s.I ∧ (s.add x kk).gfx = s.gfx ∧
    (s.add x kk).stack = s.stack ∧ (s.add x kk).keypad = s.keypad ∧
    (s.add x kk).delay_timer = s.delay_timer ∧
    (s.add x kk).sound_timer = s.sound_timer ∧
    (s.add x kk).timer = s.timer ∧
    (s.add x kk).waiting_for_keypress = s.waiting_for_keypress := by
  refine ⟨getD_set_eq _ _ (hV ▸ hx), getD_set_ne _ _ (Ne.symm hj), ?_, rfl, rfl, rfl,
    rfl, rfl, rfl, rfl, rfl, rfl, rfl⟩
  · simp [Chip8Emulator.add]

/-- Witness for C4 at a concrete state: `x = 3`, `kk = 250`, `j = 15`. -/
theorem add_immediate_wraps_witness :
    ((Chip8Emulator.new 0).add 3 250).V.getD 3 0
        = ((Chip8Emulator.new 0).V.getD 3 0 + 250) % 256 ∧
    ((Chip8Emulator.new 0).add 3 250).V.getD 15 0 = (Chip8Emulator.new 0).V.getD 15 0 ∧
    ((Chip8Emulator.new 0).add 3 250).V.length = (Chip8Emulator.new 0).V.length ∧
    ((Chip8Emulator.new 0).add 3 250).memory = (Chip8Emulator.new 0).memory ∧
    ((Chip8Emulator.new 0).add 3 250).pc = (Chip8Emulator.new 0).pc ∧
    ((Chip8Emulator.new 0).add 3 250).I = (Chip8Emulator.new 0).I ∧
    ((Chip8Emulator.new 0).add 3 250).gfx = (Chip8Emulator.new 0).gfx ∧
    ((Chip8Emulator.new 0).add 3 250).stack = (Chip8Emulator.new 0).stack ∧
    ((Chip8Emulator.new 0).add 3 250).keypad = (Chip8Emulator.new 0).keypad ∧
    ((Chip8Emulator.new 0).add 3 250).delay_timer = (Chip8Emulator.new 0).delay_timer ∧
    ((Chip8Emulator.new 0).add 3 250).sound_timer = (Chip8Emulator.new 0).sound_timer ∧
    ((Chip8Emulator.new 0).add 3 250).timer = (Chip8Emulator.new 0).timer ∧
    ((Chip8Emulator.new 0).add 3 250).waiting_for_keypress
        = (Chip8Emulator.new 0).waiting_for_keypress :=
  add_immediate_wraps (Chip8Emulator.new 0) 3 250 15 (by decide) (by decide) (by decide)

/-- Claim C7: executing return (00EE) with an empty call stack is a fatal
error (`none`, the modelled panic of `pop().expect(..)`), never a silent
no-op; with a nonempty stack it pops the return address into `pc` and
shrinks the stack by one entry. -/
theorem return_subroutine_spec (s t : Chip8Emulator) (a : Nat) (rest : List Nat)
    (hs : s.stack = []) (ht : t.stack = a :: rest) :
    s.return_subroutine = none ∧
    t.return_subroutine = some { t with pc := a, stack := rest } ∧
    rest.length = t.stack.length - 1 := by
  refine ⟨?_, ?_, by simp [ht]⟩
  · simp [Chip8Emulator.return_subroutine, hs]
  · simp [Chip8Emulator.return_subroutine, ht]

/-- Witness for C7: the freshly constructed machine (empty stack) and the
same machine with one return address pushed. -/
theorem return_subroutine_spec_witness :
    (Chip8Emulator.new 0).return_subroutine = none ∧
    { Chip8Emulator.new 0 with stack := [0x344] }.return_subroutine
      = some { { Chip8Emulator.new 0 with stack := [0x344] } with pc := 0x344, stack := [] } ∧
    List.length ([] : List Nat)
      = { Chip8Emulator.new 0 with stack := [0x344] }.stack.length - 1 :=
  return_subroutine_spec (Chip8Emulator.new 0)
    { Chip8Emulator.new 0 with stack := [0x344] } 0x344 [] rfl rfl

/-- Claim C10: calling keydown with an out-of-range key (`k > 0xF`) while
the machine is awaiting a key for register `x` first writes the raw key
into `Vx` and clears the awaiting sub-state, and only then hits the
key-range assertion — the call faults (`Except.error`) but the state it
leaves behind is already mutated. -/
theorem keydown_out_of_range_mutates (s : Chip8Emulator) (x k : Nat)
    (hw : s.waiting_for_keypress = some x) (hk : 15 < k) (hx : x < 16)
    (hV : s.V.length = 16) :
    s.keydown k
      = Except.error { s with V := s.V.set x k, waiting_for_keypress := none } ∧
    (s.V.set x k).getD x 0 = k := by
  constructor
  · simp [Chip8Emulator.keydown, hw, Nat.not_le.mpr hk]
  · exact getD_set_eq _ _ (hV ▸ hx)

/-- Witness for C10: awaiting register 2, key 20 pressed. -/
theorem keydown_out_of_range_mutates_witness :
    { Chip8Emulator.new 0 with waiting_for_keypress := some 2 }.keydown 20
      = Except.error { { Chip8Emulator.new 0 with waiting_for_keypress := some 2 } with
          V := { Chip8Emulator.new 0 with waiting_for_keypress := some 2 }.V.set 2 20,
          waiting_for_keypress := none } ∧
    ({ Chip8Emulator.new 0 with waiting_for_keypress := some 2 }.V.set 2 20).getD 2 0 = 20 :=
  keydown_out_of_range_mutates { Chip8Emulator.new 0 with waiting_for_keypress := some 2 }
    2 20 rfl (by decide) (by decide) (by decide)

/-! Claim C9: the ordered key scan of `wait_for_keypress`. -/

theorem find?_range_eq_some {p : Nat → Bool} {n k : Nat}
    (hk : k < n) (hp : p k = true) (hmin : ∀ j, j < k → p j = false) :
    (List.range n).find? p = some k := by
  induction n with
  | zero => omega
  | succ m ih =>
    rw [List.range_succ, List.find?_append]
    rcases Nat.lt_or_ge k m with h | h
    · rw [ih h]; rfl
    · have hkm : k = m := by omega
      have hnone : (List.range m).find? p = none := by
        refine List.find?_eq_none.mpr ?_
        intro x hx
        simp only [List.mem_range] at hx
        simp [hmin x (by omega)]
      subst hkm
      simp [hnone, List.find?, hp]

theorem find?_range_eq_none {p : Nat → Bool} {n : Nat}
    (h : ∀ j, j < n → p j = false) : (List.range n).find? p = none := by
  refine List.find?_eq_none.mpr ?_
  intro x hx
  simp only [List.mem_range] at hx
  simp [h x hx]

/-- Claim C9: if some key is down, wait-for-key (Fx0A) immediately writes
the lowest down key index into `Vx`, leaving the keypad and the awaiting
sub-state untouched; if no key is down, it only records the awaiting
sub-state for `Vx` and leaves the registers untouched. -/
theorem wait_for_keypress_spec (s t : Chip8Emulator) (x kmin : Nat)
    (hk : kmin < 16) (hdown : s.keypad.getD kmin false = true)
    (hlow : ∀ j, j < kmin → s.keypad.getD j false = false)
    (hnone : ∀ j, j < 16 → t.keypad.getD j false = false) :
    s.wait_for_keypress x = { s with V := s.V.set x kmin } ∧
    t.wait_for_keypress x = { t with waiting_for_keypress := some x } := by
  constructor
  · rw [Chip8Emulator.wait_for_keypress, find?_range_eq_some hk hdown hlow]
  · rw [Chip8Emulator.wait_for_keypress, find?_range_eq_none hnone]

/-- Witness for C9: keys 5 and 9 down resolves to 5; the fresh machine
with no key down records the awaiting sub-state. -/
theorem wait_for_keypress_spec_witness :
    { Chip8Emulator.new 0 with
        keypad := ((List.replicate 16 false).set 5 true).set 9 true }.wait_for_keypress 3
      = { { Chip8Emulator.new 0 with
              keypad := ((List.replicate 16 false).set 5 true).set 9 true } with
          V := { Chip8Emulator.new 0 with
                   keypad := ((List.replicate 16 false).set 5 true).set 9 true }.V.set 3 5 } ∧
    (Chip8Emulator.new 0).wait_for_keypress 3
      = { Chip8Emulator.new 0 with waiting_for_keypress := some 3 } :=
  wait_for_keypress_spec
    { Chip8Emulator.new 0 with
        keypad := ((List.replicate 16 false).set 5 true).set 9 true }
    (Chip8Emulator.new 0) 3 5 (by decide) (by decide) (by decide) (by decide)

/-! Claims C6 and C5: timer saturation and tick conservation. -/

theorem ratFloor_coe (q : ℚ) : q.floor = ⌊q⌋ := by
  rw [Rat.floor_def', Rat.floor_def]

theorem floor_toNat_ge (c : Nat) (t0 d i : ℚ) (hi : 0 < i) (hd : 0 ≤ d) :
    c ≤ ((t0 + (c : ℚ) * i + d - t0) / i).floor.toNat := by
  have h : ((c : ℤ) : ℚ) ≤ (t0 + (c : ℚ) * i + d - t0) / i := by
    rw [le_div_iff₀ hi]
    push_cast
    linarith
  have h2 : (c : ℤ) ≤ ((t0 + (c : ℚ) * i + d - t0) / i).floor := by
    rw [ratFloor_coe]
    exact Int.le_floor.mpr h
  omega

/-- Claim C6: a timer (delay or sound) set to the 8-bit value `v` and then
stepped across at least `v + k` whole 60 Hz periods reads 0: the
subtraction floors at zero and never wraps to 255.  Proved for both the
countdown timer of timer.rs and the accumulator-based chip8timer.rs. -/
theorem timer_saturates_at_zero (v k : Nat) (t0 d : ℚ) (hv : v ≤ 255) (hd : 0 ≤ d) :
    (Timer.step { value := v, prev_time := t0 }
        (t0 + ((v : ℚ) + (k : ℚ)) * Timer.INTERVAL + d)).value = 0 ∧
    (Chip8Timer.step { value := v, timer := { prev_time := t0, interval := 1000 / 60 } }
        (t0 + ((v : ℚ) + (k : ℚ)) * (1000 / 60) + d)).value = 0 := by
  have hI : (0 : ℚ) < 1000 / 60 := by norm_num
  have h := floor_toNat_ge (v + k) t0 d (1000 / 60) hI hd
  rw [Nat.cast_add] at h
  constructor
  · have hIdef : Timer.INTERVAL = 1000 / 60 := rfl
    simp only [Timer.step, Timer.stepTicks, Timer.ticks, hIdef]
    omega
  · simp only [Chip8Timer.step, RateAccumulator.consume, RateAccumulator.count]
    omega

/-- Witness for C6: `v = 5`, `k = 0`, reference time 0, no extra elapsed
fraction. -/
theorem timer_saturates_at_zero_witness :
    (Timer.step { value := 5, prev_time := 0 }
        (0 + ((5 : ℚ) + (0 : ℚ)) * Timer.INTERVAL + 0)).value = 0 ∧
    (Chip8Timer.step { value := 5, timer := { prev_time := 0, interval := 1000 / 60 } }
        (0 + ((5 : ℚ) + (0 : ℚ)) * (1000 / 60) + 0)).value = 0 :=
  timer_saturates_at_zero 5 0 0 0 (by decide) (le_refl 0)

theorem getLastD_cons' (a d : ℚ) (l : List ℚ) : (a :: l).getLastD d = l.getLastD a := by
  cases l <;> simp [List.getLastD]

theorem chain_le_head_le {a a' : ℚ} {l : List ℚ} (ha : a' ≤ a)
    (h : List.Chain (· ≤ ·) a l) : List.Chain (· ≤ ·) a' l := by
  cases h with
  | nil => exact List.Chain.nil
  | cons hab hl => exact List.Chain.cons (le_trans ha hab) hl

theorem chain_le_getLastD {a : ℚ} {l : List ℚ} (h : List.Chain (· ≤ ·) a l) :
    a ≤ l.getLastD a := by
  induction l generalizing a with
  | nil => exact le_refl a
  | cons b l ih =>
    cases h with
    | cons hab hl =>
      rw [getLastD_cons']
      exact le_trans hab (ih hl)

/-- Claim C5: over any monotonically non-decreasing sequence of timestamps
fed to `step`, the accumulator advances its reference time only by whole
intervals, and the total number of whole ticks consumed equals
`floor((t_final - t_initial) / interval)` exactly (hence within one unit):
no fractional progress is lost or double-counted across calls. -/
theorem rate_accumulator_conserves_ticks (t : Timer) (ts : List ℚ)
    (h : List.Chain (· ≤ ·) t.prev_time ts) :
    (t.run ts).2
      = ((ts.getLastD t.prev_time - t.prev_time) / Timer.INTERVAL).floor.toNat := by
  induction ts generalizing t with
  | nil => simp [Timer.run, List.getLastD, ratFloor_coe]
  | cons now rest ih =>
    cases h with
    | cons h1 h2 =>
      have hI : (0 : ℚ) < Timer.INTERVAL := by norm_num [Timer.INTERVAL]
      have ha0 : (0 : ℤ) ≤ (t.ticks now).floor := by
        rw [ratFloor_coe]
        exact Int.floor_nonneg.mpr (div_nonneg (by linarith) (le_of_lt hI))
      have hprev' : (t.step now).prev_time
          = t.prev_time + ((t.ticks now).floor : ℚ) * Timer.INTERVAL := rfl
      have hple : (t.step now).prev_time ≤ now := by
        rw [hprev']
        have hfl : ((t.ticks now).floor : ℚ) ≤ t.ticks now := by
          rw [ratFloor_coe]; exact Int.floor_le _
        have h3 : ((t.ticks now).floor : ℚ) * Timer.INTERVAL
            ≤ t.ticks now * Timer.INTERVAL := mul_le_mul_of_nonneg_right hfl (le_of_lt hI)
        have h4 : t.ticks now * Timer.INTERVAL = now - t.prev_time :=
          div_mul_cancel₀ _ (ne_of_gt hI)
        linarith
      rcases rest with _ | ⟨b, l⟩
      · simp only [Timer.run, Timer.stepTicks, Timer.ticks]
        rw [getLastD_cons']
        simp [List.getLastD]
      · have hrec := ih (t.step now) (chain_le_head_le hple h2)
        rw [getLastD_cons'] at hrec
        have hnowL : now ≤ (b :: l).getLastD now := chain_le_getLastD h2
        rw [getLastD_cons'] at hnowL
        have hb : (l.getLastD b - (t.step now).prev_time) / Timer.INTERVAL
            = (l.getLastD b - t.prev_time) / Timer.INTERVAL
              - ((t.ticks now).floor : ℚ) := by
          rw [hprev', sub_add_eq_sub_sub, sub_div, mul_div_cancel_right₀ _ (ne_of_gt hI)]
        have hb0 : (0 : ℤ)
            ≤ ((l.getLastD b - (t.step now).prev_time) / Timer.INTERVAL).floor := by
          rw [ratFloor_coe]
          exact Int.floor_nonneg.mpr (div_nonneg (by linarith) (le_of_lt hI))
        have hfl2 : ((l.getLastD b - (t.step now).prev_time) / Timer.INTERVAL).floor
            = ((l.getLastD b - t.prev_time) / Timer.INTERVAL).floor
              - (t.ticks now).floor := by
          rw [ratFloor_coe, hb, ratFloor_coe, ratFloor_coe, Int.floor_sub_int]
        rw [show (t.run (now :: b :: l)).2
              = t.stepTicks now + ((t.step now).run (b :: l)).2 from rfl,
          hrec, getLastD_cons', getLastD_cons']
        simp only [Timer.stepTicks]
        omega

/-- Witness for C5: reference time 0, two calls at times 20 and 40. -/
theorem rate_accumulator_conserves_ticks_witness :
    (Timer.run { value := 0, prev_time := 0 } [20, 40]).2
      = ((([20, 40] : List ℚ).getLastD (0 : ℚ) - 0) / Timer.INTERVAL).floor.toNat :=
  rate_accumulator_conserves_ticks { value := 0, prev_time := 0 } [20, 40]
    (List.Chain.cons (by norm_num) (List.Chain.cons (by norm_num) List.Chain.nil))

/-! Preservation of the blocking sub-state by every instruction other
than wait-for-key: needed for claim C2's "entered only by wait-for-key". -/

open Chip8Emulator in
@[simp] theorem waiting_clear_screen (s : Chip8Emulator) :
    (clear_screen s).waiting_for_keypress = s.waiting_for_keypress := rfl

open Chip8Emulator in
@[simp] theorem waiting_jump_to (s : Chip8Emulator) (a : Nat) :
    (jump_to s a).waiting_for_keypress = s.waiting_for_keypress := rfl

open Chip8Emulator in
@[simp] theorem waiting_execute_subroutine (s : Chip8Emulator) (a : Nat) :
    (execute_subroutine s a).waiting_for_keypress = s.waiting_for_keypress := rfl

open Chip8Emulator in
@[simp] theorem waiting_skip_if_eq (s : Chip8Emulator) (x v : Nat) :
    (skip_if_eq s x v).waiting_for_keypress = s.waiting_for_keypress := by
  simp only [skip_if_eq]; split <;> rfl

open Chip8Emulator in
@[simp] theorem waiting_skip_if_ne (s : Chip8Emulator) (x v : Nat) :
    (skip_if_ne s x v).waiting_for_keypress = s.waiting_for_keypress := by
  simp only [skip_if_ne]; split <;> rfl

open Chip8Emulator in
@[simp] theorem waiting_skip_if_eq_reg (s : Chip8Emulator) (x y : Nat) :
    (skip_if_eq_reg s x y).waiting_for_keypress = s.waiting_for_keypress := by
  simp only [skip_if_eq_reg]; split <;> rfl

open Chip8Emulator in
@[simp] theorem waiting_skip_if_ne_reg (s : Chip8Emulator) (x y : Nat) :
    (skip_if_ne_reg s x y).waiting_for_keypress = s.waiting_for_keypress := by
  simp only [skip_if_ne_reg]; split <;> rfl

open Chip8Emulator in
@[simp] theorem waiting_store (s : Chip8Emulator) (x v : Nat) :
    (store s x v).waiting_for_keypress = s.waiting_for_keypress := rfl

open Chip8Emulator in
@[simp] theorem waiting_add (s : Chip8Emulator) (x v : Nat) :
    (Chip8Emulator.add s x v).waiting_for_keypress = s.waiting_for_keypress := rfl

open Chip8Emulator in
@[simp] theorem waiting_store_reg (s : Chip8Emulator) (x y : Nat) :
    (store_reg s x y).waiting_for_keypress = s.waiting_for_keypress := rfl

open Chip8Emulator in
@[simp] theorem waiting_store_reg_or (s : Chip8Emulator) (x y : Nat) :
    (store_reg_or s x y).waiting_for_keypress = s.waiting_for_keypress := rfl

open Chip8Emulator in
@[simp] theorem waiting_store_reg_and (s : Chip8Emulator) (x y : Nat) :
    (store_reg_and s x y).waiting_for_keypress = s.waiting_for_keypress := rfl

open Chip8Emulator in
@[simp] theorem waiting_store_reg_xor (s : Chip8Emulator) (x y : Nat) :
    (store_reg_xor s x y).waiting_for_keypress = s.waiting_for_keypress := rfl

open Chip8Emulator in
@[simp] theorem waiting_add_reg (s : Chip8Emulator) (x y : Nat) :
    (add_reg s x y).waiting_for_keypress = s.waiting_for_keypress := rfl

open Chip8Emulator in
@[simp] theorem waiting_sub_reg (s : Chip8Emulator) (x y : Nat) :
    (sub_reg s x y).waiting_for_keypress = s.waiting_for_keypress := rfl

open Chip8Emulator in
@[simp] theorem waiting_store_reg_shr1 (s : Chip8Emulator) (x y : Nat) :
    (store_reg_shr1 s x y).waiting_for_keypress = s.waiting_for_keypress := rfl

open Chip8Emulator in
@[simp] theorem waiting_store_reg_sub (s : Chip8Emulator) (x y : Nat) :
    (store_reg_sub s x y).waiting_for_keypress = s.waiting_for_keypress := rfl

open Chip8Emulator in
@[simp] theorem waiting_store_reg_shl1 (s : Chip8Emulator) (x y : Nat) :
    (store_reg_shl1 s x y).waiting_for_keypress = s.waiting_for_keypress := rfl

open Chip8Emulator in
@[simp] theorem waiting_store_address (s : Chip8Emulator) (a : Nat) :
    (store_address s a).waiting_for_keypress = s.waiting_for_keypress := rfl

open Chip8Emulator in
@[simp] theorem waiting_jump_to_plus_v0 (s : Chip8Emulator) (a : Nat) :
    (jump_to_plus_v0 s a).waiting_for_keypress = s.waiting_for_keypress := rfl

open Chip8Emulator in
@[simp] theorem waiting_store_random (s : Chip8Emulator) (rnd x m : Nat) :
    (store_random s rnd x m).waiting_for_keypress = s.waiting_for_keypress := rfl

open Chip8Emulator in
@[simp] theorem waiting_drawPixel (x y row : Nat) (s : Chip8Emulator) (dy dx : Nat) :
    (drawPixel x y row s dy dx).waiting_for_keypress = s.waiting_for_keypress := by
  simp only [drawPixel]
  split
  · split <;> rfl
  · rfl

open Chip8Emulator in
@[simp] theorem waiting_drawRow (x y : Nat) (s : Chip8Emulator) (dy : Nat) :
    (drawRow x y s dy).waiting_for_keypress = s.waiting_for_keypress := by
  simp only [drawRow]
  exact foldl_preserves _ (fun s1 => s1.waiting_for_keypress)
    (fun s1 dx => waiting_drawPixel x y _ s1 dy dx) _ s

open Chip8Emulator in
@[simp] theorem waiting_draw_sprite (s : Chip8Emulator) (xr yr n : Nat) :
    (draw_sprite s xr yr n).waiting_for_keypress = s.waiting_for_keypress := by
  simp only [draw_sprite]
  exact foldl_preserves _ (fun s1 => s1.waiting_for_keypress)
    (fun s1 dy => waiting_drawRow _ _ s1 dy) _ _

open Chip8Emulator in
@[simp] theorem waiting_skip_if_pressed (s : Chip8Emulator) (x : Nat) :
    (skip_if_pressed s x).waiting_for_keypress = s.waiting_for_keypress := by
  simp only [skip_if_pressed]; split <;> rfl

open Chip8Emulator in
@[simp] theorem waiting_skip_if_not_pressed (s : Chip8Emulator) (x : Nat) :
    (skip_if_not_pressed s x).waiting_for_keypress = s.waiting_for_keypress := by
  simp only [skip_if_not_pressed]; split <;> rfl

open Chip8Emulator in
@[simp] theorem waiting_store_delay (s : Chip8Emulator) (x : Nat) :
    (store_delay s x).waiting_for_keypress = s.waiting_for_keypress := rfl

open Chip8Emulator in
@[simp] theorem waiting_set_delay (s : Chip8Emulator) (x : Nat) :
    (set_delay s x).waiting_for_keypress = s.waiting_for_keypress := rfl

open Chip8Emulator in
@[simp] theorem waiting_set_sound (s : Chip8Emulator) (x : Nat) :
    (set_sound s x).waiting_for_keypress = s.waiting_for_keypress := rfl

open Chip8Emulator in
@[simp] theorem waiting_add_to_I (s : Chip8Emulator) (x : Nat) :
    (add_to_I s x).waiting_for_keypress = s.waiting_for_keypress := rfl

open Chip8Emulator in
@[simp] theorem waiting_store_digit_address (s : Chip8Emulator) (x : Nat) :
    (store_digit_address s x).waiting_for_keypress = s.waiting_for_keypress := rfl

open Chip8Emulator in
@[simp] theorem waiting_store_bcd (s : Chip8Emulator) (x : Nat) :
    (store_bcd s x).waiting_for_keypress = s.waiting_for_keypress := rfl

open Chip8Emulator in
@[simp] theorem waiting_store_regs_in_memory (s : Chip8Emulator) (x : Nat) :
    (store_regs_in_memory s x).waiting_for_keypress = s.waiting_for_keypress := rfl

open Chip8Emulator in
@[simp] theorem waiting_store_memory_in_regs (s : Chip8Emulator) (x : Nat) :
    (store_memory_in_regs s x).waiting_for_keypress = s.waiting_for_keypress := rfl

open Chip8Emulator in
@[simp] theorem waiting_invalid_instruction (s : Chip8Emulator) :
    (invalid_instruction s).waiting_for_keypress = s.waiting_for_keypress := rfl

open Chip8Emulator in
theorem waiting_return_subroutine (s u : Chip8Emulator)
    (h : return_subroutine s = some u) :
    u.waiting_for_keypress = s.waiting_for_keypress := by
  rcases hst : s.stack with _ | ⟨a, rest⟩ <;> rw [return_subroutine, hst] at h
  · exact Option.noConfusion h
  · injection h with h'
    rw [← h']

/-! Claim C8: invalid instructions are no-ops past the fetch. -/

theorem dispatch_invalid (rnd op : Nat) (s : Chip8Emulator) (h : invalidOpcode op) :
    Chip8Emulator.dispatch rnd op s = some s := by
  rcases h with ⟨h0, h3⟩ | ⟨h0, h3⟩ | ⟨h0, h3⟩ | ⟨h0, h3⟩ | ⟨h0, h3⟩ <;>
    simp_all [Chip8Emulator.dispatch, Chip8Emulator.invalid_instruction]

/-- Claim C8: executing any fetched opcode of families 5, 8, 9, E, F whose
secondary selector matches no known instruction changes nothing but the
program counter, which the fetch has already advanced by 2: memory,
registers, `I`, the stack, the framebuffer, the timers and the keypad are
all untouched and execution continues at the advanced `pc`. -/
theorem invalid_instruction_is_noop (rnd : Nat) (s : Chip8Emulator)
    (h : invalidOpcode (Chip8Emulator.fetched s)) :
    Chip8Emulator.execute_next_instruction rnd s
      = some { s with pc := (s.pc + 2) % 65536 } := by
  rw [Chip8Emulator.execute_next_instruction]
  exact dispatch_invalid rnd (Chip8Emulator.fetched s) { s with pc := (s.pc + 2) % 65536 } h

/-- Witness for C8: opcode 0x5F01 (family 5 with bottom nibble 1) placed
at the program origin of the fresh machine. -/
theorem invalid_instruction_is_noop_witness :
    Chip8Emulator.execute_next_instruction 0
        { Chip8Emulator.new 0 with
            memory := (((Chip8Emulator.new 0).memory.set 0x200 0x5F).set 0x201 0x01) }
      = some { { Chip8Emulator.new 0 with
            memory := (((Chip8Emulator.new 0).memory.set 0x200 0x5F).set 0x201 0x01) } with
          pc := ({ Chip8Emulator.new 0 with
            memory := (((Chip8Emulator.new 0).memory.set 0x200 0x5F).set 0x201 0x01) }.pc + 2)
            % 65536 } :=
  invalid_instruction_is_noop 0
    { Chip8Emulator.new 0 with
        memory := (((Chip8Emulator.new 0).memory.set 0x200 0x5F).set 0x201 0x01) }
    (by decide)

/-! Claim C2: the blocking-input state machine. -/

set_option maxHeartbeats 2000000 in
open Chip8Emulator in
theorem dispatch_preserves_waiting (rnd op : Nat) (s u' : Chip8Emulator)
    (h : dispatch rnd op s = some u')
    (hnot : ¬(get_nibble op 0 = 15 ∧ get_nibbles_from op 2 = 0x0a)) :
    u'.waiting_for_keypress = s.waiting_for_keypress := by
  have h15 : get_nibble op 0 = 15 → get_nibbles_from op 2 ≠ 0x0a :=
    fun ha hb => hnot ⟨ha, hb⟩
  have h16 : get_nibble op 0 < 16 := Nat.mod_lt _ (by norm_num)
  have hcases : get_nibble op 0 = 0 ∨ get_nibble op 0 = 1 ∨ get_nibble op 0 = 2 ∨
      get_nibble op 0 = 3 ∨ get_nibble op 0 = 4 ∨ get_nibble op 0 = 5 ∨
      get_nibble op 0 = 6 ∨ get_nibble op 0 = 7 ∨ get_nibble op 0 = 8 ∨
      get_nibble op 0 = 9 ∨ get_nibble op 0 = 10 ∨ get_nibble op 0 = 11 ∨
      get_nibble op 0 = 12 ∨ get_nibble op 0 = 13 ∨ get_nibble op 0 = 14 ∨
      get_nibble op 0 = 15 := by omega
  rcases hcases with h0 | h0 | h0 | h0 | h0 | h0 | h0 | h0 | h0 | h0 | h0 | h0 | h0 | h0 |
      h0 | h0 <;>
    simp only [dispatch, h0] at h <;>
    norm_num at h <;>
    (repeat' split at h) <;>
    first
      | (injection h with h'
         rw [← h']
         simp
         done)
      | (rw [← h]; simp; done)
      | (exact waiting_return_subroutine s u' h)
      | (rename_i hbp
         exact absurd hbp (h15 (by assumption)))

open Chip8Emulator in
theorem dispatch_enters_waiting (rnd op : Nat) (s u' : Chip8Emulator)
    (h : dispatch rnd op s = some u')
    (hw : s.waiting_for_keypress = none)
    (hne : u'.waiting_for_keypress ≠ none) :
    get_nibble op 0 = 15 ∧ get_nibbles_from op 2 = 0x0a ∧
    (∀ j, j < 16 → s.keypad.getD j false = false) ∧
    u'.waiting_for_keypress = some (get_nibble op 1) := by
  by_cases hc : get_nibble op 0 = 15 ∧ get_nibbles_from op 2 = 0x0a
  · obtain ⟨hn0, hb⟩ := hc
    have hB : dispatch rnd op s = some (wait_for_keypress s (get_nibble op 1)) := by
      simp [dispatch, hn0, hb]
    rw [hB] at h
    injection h with h'
    rw [wait_for_keypress] at h'
    rcases hfind : (List.range 16).find? (fun j => s.keypad.getD j false) with _ | j0
    · rw [hfind] at h'
      refine ⟨hn0, hb, ?_, ?_⟩
      · intro j hj
        have hmem := List.find?_eq_none.mp hfind j (List.mem_range.mpr hj)
        simpa using hmem
      · rw [← h']
    · rw [hfind] at h'
      exfalso
      rw [← h'] at hne
      exact hne hw
  · exact absurd ((dispatch_preserves_waiting rnd op s u' h hc).trans hw) hne

open Chip8Emulator in
theorem tick_loop_blocked (rnds : Nat → Nat) (r : Nat) :
    ∀ (n : Nat) (s : Chip8Emulator), s.waiting_for_keypress = some r →
      tick_loop rnds n s = some s := by
  intro n
  induction n with
  | zero => intro s _; rfl
  | succ m ih =>
    intro s hs
    rw [tick_loop, hs]
    rw [if_neg (by simp)]
    exact ih s hs

/-- Claim C2: while the machine is awaiting a key for register `r`, a
`tick` executes zero instructions yet still advances the delay and sound
timers and the instruction clock's accumulator; a `keydown k` with
`k ≤ 0xF` writes `k` into register `r`, clears the awaiting sub-state and
records the key; `keyup` leaves the sub-state in place; once the sub-state
is clear a one-instruction tick loop executes exactly the next
instruction; and an instruction execution starting with no awaiting
sub-state enters it only for opcode Fx0A when no key is down, recording
the decoded register selector. -/
theorem blocking_input_state_machine (s t u u' v : Chip8Emulator)
    (r k rnd key : Nat) (rnds : Nat → Nat) (now : ℚ)
    (hs : s.waiting_for_keypress = some r)
    (ht : t.waiting_for_keypress = some r)
    (hk : k ≤ 15) (hr : r < 16) (hVt : t.V.length = 16)
    (hu : u.waiting_for_keypress = none)
    (hex : Chip8Emulator.execute_next_instruction rnd u = some u')
    (hne : u'.waiting_for_keypress ≠ none)
    (hkey : key < 16)
    (hv : v.waiting_for_keypress = none) :
    Chip8Emulator.tick rnds s now
      = some { s with delay_timer := s.delay_timer.step now
                      sound_timer := s.sound_timer.step now
                      timer := (s.timer.consume now).2 } ∧
    t.keydown k = Except.ok { t with V := t.V.set r k, waiting_for_keypress := none
                                     keypad := t.keypad.set k true } ∧
    (t.V.set r k).getD r 0 = k ∧
    t.keyup k = Except.ok { t with keypad := t.keypad.set k false } ∧
    Chip8Emulator.tick_loop rnds 1 v = Chip8Emulator.execute_next_instruction (rnds 0) v ∧
    (get_nibble (Chip8Emulator.fetched u) 0 = 15 ∧
     get_nibbles_from (Chip8Emulator.fetched u) 2 = 0x0a ∧
     u.keypad.getD key false = false ∧
     u'.waiting_for_keypress = some (get_nibble (Chip8Emulator.fetched u) 1)) := by
  refine ⟨?_, ?_, getD_set_eq _ _ (hVt ▸ hr), ?_, ?_, ?_⟩
  · exact tick_loop_blocked rnds r _ _ hs
  · simp [Chip8Emulator.keydown, ht, hk]
  · simp [Chip8Emulator.keyup, hk]
  · rw [Chip8Emulator.tick_loop, if_pos hv]
    rcases Chip8Emulator.execute_next_instruction (rnds 0) v with _ | w
    · rfl
    · rfl
  · obtain ⟨ha, hb, hcp, hd⟩ := dispatch_enters_waiting rnd (Chip8Emulator.fetched u)
      { u with pc := (u.pc + 2) % 65536 } u' hex hu hne
    exact ⟨ha, hb, hcp key hkey, hd⟩

/-- Witness for C2: a machine awaiting register 4, key 7 pressed, and a
machine about to execute the wait-for-key opcode 0xF40A with no key down. -/
theorem blocking_input_state_machine_witness :
    (Chip8Emulator.tick (fun _ => 0) { Chip8Emulator.new 0 with waiting_for_keypress := some 4 } 0
      = some { { Chip8Emulator.new 0 with waiting_for_keypress := some 4 } with
          delay_timer :=
            { Chip8Emulator.new 0 with waiting_for_keypress := some 4 }.delay_timer.step 0
          sound_timer :=
            { Chip8Emulator.new 0 with waiting_for_keypress := some 4 }.sound_timer.step 0
          timer :=
            ({ Chip8Emulator.new 0 with waiting_for_keypress := some 4 }.timer.consume 0).2 }) ∧
    ({ Chip8Emulator.new 0 with waiting_for_keypress := some 4 }.keydown 7
      = Except.ok { { Chip8Emulator.new 0 with waiting_for_keypress := some 4 } with
          V := { Chip8Emulator.new 0 with waiting_for_keypress := some 4 }.V.set 4 7
          waiting_for_keypress := none
          keypad :=
            { Chip8Emulator.new 0 with waiting_for_keypress := some 4 }.keypad.set 7 true }) ∧
    (({ Chip8Emulator.new 0 with waiting_for_keypress := some 4 }.V.set 4 7).getD 4 0 = 7) ∧
    ({ Chip8Emulator.new 0 with waiting_for_keypress := some 4 }.keyup 7
      = Except.ok { { Chip8Emulator.new 0 with waiting_for_keypress := some 4 } with
          keypad :=
            { Chip8Emulator.new 0 with waiting_for_keypress := some 4 }.keypad.set 7 false }) ∧
    (Chip8Emulator.tick_loop (fun _ => 0) 1
          { Chip8Emulator.new 0 with
              memory := (((Chip8Emulator.new 0).memory.set 0x200 0xF4).set 0x201 0x0A) }
      = Chip8Emulator.execute_next_instruction 0
          { Chip8Emulator.new 0 with
              memory := (((Chip8Emulator.new 0).memory.set 0x200 0xF4).set 0x201 0x0A) }) ∧
    (get_nibble (Chip8Emulator.fetched
        { Chip8Emulator.new 0 with
            memory := (((Chip8Emulator.new 0).memory.set 0x200 0xF4).set 0x201 0x0A) }) 0
        = 15 ∧
     get_nibbles_from (Chip8Emulator.fetched
        { Chip8Emulator.new 0 with
            memory := (((Chip8Emulator.new 0).memory.set 0x200 0xF4).set 0x201 0x0A) }) 2
        = 0x0a ∧
     { Chip8Emulator.new 0 with
         memory := (((Chip8Emulator.new 0).memory.set 0x200 0xF4).set 0x201 0x0A)
       }.keypad.getD 3 false = false ∧
     { { Chip8Emulator.new 0 with
           memory := (((Chip8Emulator.new 0).memory.set 0x200 0xF4).set 0x201 0x0A) } with
         pc := 0x202, waiting_for_keypress := some 4 }.waiting_for_keypress
       = some (get_nibble (Chip8Emulator.fetched
           { Chip8Emulator.new 0 with
               memory := (((Chip8Emulator.new 0).memory.set 0x200 0xF4).set 0x201 0x0A) }) 1)) :=
  blocking_input_state_machine
    { Chip8Emulator.new 0 with waiting_for_keypress := some 4 }
    { Chip8Emulator.new 0 with waiting_for_keypress := some 4 }
    { Chip8Emulator.new 0 with
        memory := (((Chip8Emulator.new 0).memory.set 0x200 0xF4).set 0x201 0x0A) }
    { { Chip8Emulator.new 0 with
          memory := (((Chip8Emulator.new 0).memory.set 0x200 0xF4).set 0x201 0x0A) } with
        pc := 0x202, waiting_for_keypress := some 4 }
    { Chip8Emulator.new 0 with
        memory := (((Chip8Emulator.new 0).memory.set 0x200 0xF4).set 0x201 0x0A) }
    4 7 0 3 (fun _ => 0) 0
    rfl rfl (by decide) (by decide) (by decide) rfl (by rfl) (by decide) (by decide) rfl

/-! Claim C1: the draw round trip.  First, the characterization of a
sequence of XOR cell toggles. -/

open Chip8Emulator in
theorem toggleCell_display (s : Chip8Emulator) (c : Nat) :
    (toggleCell s c).gfx.display
      = s.gfx.display.set c (!s.gfx.display.getD c false) := by
  simp only [toggleCell]; split <;> rfl

open Chip8Emulator in
theorem toggleCell_V (s : Chip8Emulator) (c : Nat) :
    (toggleCell s c).V
      = if s.gfx.display.getD c false then s.V.set 15 1 else s.V := by
  simp only [toggleCell]; split <;> simp_all

open Chip8Emulator in
theorem toggleCell_width (s : Chip8Emulator) (c : Nat) :
    (toggleCell s c).gfx.width = s.gfx.width := by
  simp only [toggleCell]; split <;> rfl

open Chip8Emulator in
theorem toggleCell_memory (s : Chip8Emulator) (c : Nat) :
    (toggleCell s c).memory = s.memory := by
  simp only [toggleCell]; split <;> rfl

open Chip8Emulator in
theorem toggleCell_I (s : Chip8Emulator) (c : Nat) :
    (toggleCell s c).I = s.I := by
  simp only [toggleCell]; split <;> rfl

open Chip8Emulator in
theorem toggleCell_pc (s : Chip8Emulator) (c : Nat) :
    (toggleCell s c).pc = s.pc := by
  simp only [toggleCell]; split <;> rfl

open Chip8Emulator in
theorem toggleCell_stack (s : Chip8Emulator) (c : Nat) :
    (toggleCell s c).stack = s.stack := by
  simp only [toggleCell]; split <;> rfl

open Chip8Emulator in
theorem toggleCells_memory (s : Chip8Emulator) (cs : List Nat) :
    (toggleCells s cs).memory = s.memory :=
  foldl_preserves toggleCell (fun s1 => s1.memory) toggleCell_memory cs s

open Chip8Emulator in
theorem toggleCells_I (s : Chip8Emulator) (cs : List Nat) :
    (toggleCells s cs).I = s.I :=
  foldl_preserves toggleCell (fun s1 => s1.I) toggleCell_I cs s

open Chip8Emulator in
theorem toggleCells_pc (s : Chip8Emulator) (cs : List Nat) :
    (toggleCells s cs).pc = s.pc :=
  foldl_preserves toggleCell (fun s1 => s1.pc) toggleCell_pc cs s

open Chip8Emulator in
theorem toggleCells_stack (s : Chip8Emulator) (cs : List Nat) :
    (toggleCells s cs).stack = s.stack :=
  foldl_preserves toggleCell (fun s1 => s1.stack) toggleCell_stack cs s

open Chip8Emulator in
theorem toggleCells_width (s : Chip8Emulator) (cs : List Nat) :
    (toggleCells s cs).gfx.width = s.gfx.width :=
  foldl_preserves toggleCell (fun s1 => s1.gfx.width) toggleCell_width cs s

theorem any_congr {l : List Nat} {p q : Nat → Bool} (h : ∀ a ∈ l, p a = q a) :
    l.any p = l.any q := by
  induction l with
  | nil => rfl
  | cons a l ih =>
    rw [List.any_cons, List.any_cons, h a (by simp), ih (fun b hb => h b (by simp [hb]))]

open Chip8Emulator in
theorem toggleCells_spec (cs : List Nat) : ∀ (s : Chip8Emulator), cs.Nodup →
    (∀ c ∈ cs, c < s.gfx.display.length) →
    (toggleCells s cs).gfx.display.length = s.gfx.display.length ∧
    (∀ idx, (toggleCells s cs).gfx.display.getD idx false
      = if idx ∈ cs then !(s.gfx.display.getD idx false)
        else s.gfx.display.getD idx false) ∧
    (toggleCells s cs).V
      = if cs.any (fun c => s.gfx.display.getD c false) then s.V.set 15 1 else s.V := by
  induction cs with
  | nil =>
    intro s _ _
    refine ⟨rfl, fun idx => ?_, by simp [toggleCells]⟩
    rw [if_neg (List.not_mem_nil idx)]
    rfl
  | cons c cs ih =>
    intro s hnd hbd
    have hc : c < s.gfx.display.length := hbd c (by simp)
    have hnd' : cs.Nodup := hnd.of_cons
    have hcnot : c ∉ cs := (List.nodup_cons.mp hnd).1
    have hlen1 : (toggleCell s c).gfx.display.length = s.gfx.display.length := by
      rw [toggleCell_display, List.length_set]
    have hbd' : ∀ c' ∈ cs, c' < (toggleCell s c).gfx.display.length := by
      intro c' hc'
      rw [hlen1]
      exact hbd c' (by simp [hc'])
    have hstep : toggleCells s (c :: cs) = toggleCells (toggleCell s c) cs := rfl
    obtain ⟨ihlen, ihdisp, ihV⟩ := ih (toggleCell s c) hnd' hbd'
    refine ⟨by rw [hstep, ihlen, hlen1], ?_, ?_⟩
    · intro idx
      rw [hstep, ihdisp idx]
      by_cases hic : idx = c
      · subst hic
        have h1 : (toggleCell s idx).gfx.display.getD idx false
            = !(s.gfx.display.getD idx false) := by
          rw [toggleCell_display]
          exact getD_set_eq _ _ hc
        rw [if_neg hcnot, h1, if_pos (List.mem_cons_self idx cs)]
      · have h1 : (toggleCell s c).gfx.display.getD idx false
            = s.gfx.display.getD idx false := by
          rw [toggleCell_display]
          exact getD_set_ne _ _ (fun he => hic he.symm)
        rw [h1]
        by_cases hmem : idx ∈ cs
        · rw [if_pos hmem, if_pos (List.mem_cons_of_mem c hmem)]
        · rw [if_neg hmem, if_neg (by simp [List.mem_cons, hic, hmem])]
    · rw [hstep, ihV]
      have hany : cs.any (fun c' => (toggleCell s c).gfx.display.getD c' false)
          = cs.any (fun c' => s.gfx.display.getD c' false) := by
        refine any_congr ?_
        intro b hb
        rw [toggleCell_display]
        exact getD_set_ne _ _ (fun he => hcnot (he ▸ hb))
      rw [hany, toggleCell_V, List.any_cons]
      by_cases hv : s.gfx.display.getD c false = true <;>
        by_cases ha : cs.any (fun c' => s.gfx.display.getD c' false) = true <;>
        simp only [hv, ha, Bool.true_or, Bool.false_or, Bool.false_eq_true,
          eq_self_iff_true, if_true, if_false, List.set_set]

open Chip8Emulator in
theorem toggleCells_append (s : Chip8Emulator) (a b : List Nat) :
    toggleCells s (a ++ b) = toggleCells (toggleCells s a) b := by
  simp only [toggleCells]
  exact List.foldl_append _ _ _ _

open Chip8Emulator in
theorem drawPixel_eq (x y row : Nat) (s : Chip8Emulator) (dy dx : Nat)
    (hw : s.gfx.width = 64) :
    drawPixel x y row s dy dx
      = if row / 2 ^ (7 - dx) % 2 = 1 then toggleCell s (cellIndex x y dy dx) else s := by
  by_cases hbit : row / 2 ^ (7 - dx) % 2 = 1
  · rw [if_pos hbit]
    simp only [drawPixel, if_pos hbit, Graphics.toggle, toggleCell, cellIndex, hw]
  · rw [if_neg hbit]
    simp only [drawPixel, if_neg hbit]

open Chip8Emulator in
theorem foldl_drawPixel_eq (x y row dy : Nat) :
    ∀ (dxs : List Nat) (s : Chip8Emulator), s.gfx.width = 64 →
      dxs.foldl (fun s1 dx => drawPixel x y row s1 dy dx) s
        = toggleCells s
            ((dxs.filter (fun dx => row / 2 ^ (7 - dx) % 2 = 1)).map (cellIndex x y dy)) := by
  intro dxs
  induction dxs with
  | nil => intro s _; rfl
  | cons dx dxs ih =>
    intro s hw
    rw [List.foldl_cons, drawPixel_eq x y row s dy dx hw]
    by_cases hbit : row / 2 ^ (7 - dx) % 2 = 1
    · rw [if_pos hbit]
      have hw' : (toggleCell s (cellIndex x y dy dx)).gfx.width = 64 := by
        rw [toggleCell_width]; exact hw
      rw [ih _ hw']
      have hfil : (dx :: dxs).filter (fun dx => row / 2 ^ (7 - dx) % 2 = 1)
          = dx :: dxs.filter (fun dx => row / 2 ^ (7 - dx) % 2 = 1) := by
        rw [List.filter_cons, if_pos (by simpa using hbit)]
      rw [hfil, List.map_cons]
      rfl
    · rw [if_neg hbit]
      rw [ih s hw]
      have hfil : (dx :: dxs).filter (fun dx => row / 2 ^ (7 - dx) % 2 = 1)
          = dxs.filter (fun dx => row / 2 ^ (7 - dx) % 2 = 1) := by
        rw [List.filter_cons, if_neg (by simpa using hbit)]
      rw [hfil]

open Chip8Emulator in
theorem drawRow_eq (x y : Nat) (s : Chip8Emulator) (dy : Nat) (hw : s.gfx.width = 64) :
    drawRow x y s dy = toggleCells s (rowCells s.memory s.I x y dy) :=
  foldl_drawPixel_eq x y (s.memory.getD (s.I + dy) 0) dy (List.range 8) s hw

open Chip8Emulator in
theorem foldl_drawRow_eq (x y : Nat) :
    ∀ (n : Nat) (s0 : Chip8Emulator), s0.gfx.width = 64 →
      (List.range n).foldl (drawRow x y) s0
        = toggleCells s0 ((List.range n).flatMap (rowCells s0.memory s0.I x y)) := by
  intro n
  induction n with
  | zero => intro s0 _; rfl
  | succ m ih =>
    intro s0 hw
    rw [List.range_succ, List.foldl_append, List.foldl_cons, List.foldl_nil, ih s0 hw,
      drawRow_eq x y _ m (by rw [toggleCells_width]; exact hw),
      toggleCells_memory, toggleCells_I, List.flatMap_append, toggleCells_append]
    have hsing : ([m] : List Nat).flatMap (rowCells s0.memory s0.I x y)
        = rowCells s0.memory s0.I x y m := by
      simp [List.flatMap_cons]
    rw [hsing]

open Chip8Emulator in
theorem draw_sprite_eq (s : Chip8Emulator) (xr yr n : Nat) (hw : s.gfx.width = 64) :
    draw_sprite s xr yr n
      = toggleCells { s with V := s.V.set 15 0 }
          (spriteCells s.memory s.I (s.V.getD xr 0 % 64) (s.V.getD yr 0 % 32) n) := by
  rw [draw_sprite]
  exact foldl_drawRow_eq _ _ n { s with V := s.V.set 15 0 } hw

theorem cellIndex_lt (x y dy dx : Nat) : cellIndex x y dy dx < 2048 := by
  have h1 : (y + dy) % 32 < 32 := Nat.mod_lt _ (by norm_num)
  have h2 : (x + dx) % 64 < 64 := Nat.mod_lt _ (by norm_num)
  unfold cellIndex
  omega

theorem mem_rowCells {mem : List Nat} {i x y dy c : Nat} (h : c ∈ rowCells mem i x y dy) :
    ∃ dx, dx < 8 ∧ c = cellIndex x y dy dx := by
  simp only [rowCells, List.mem_map, List.mem_filter, List.mem_range] at h
  obtain ⟨dx, ⟨hdx, _⟩, rfl⟩ := h
  exact ⟨dx, hdx, rfl⟩

theorem mem_spriteCells {mem : List Nat} {i x y n c : Nat}
    (h : c ∈ spriteCells mem i x y n) : ∃ dy, dy < n ∧ c ∈ rowCells mem i x y dy := by
  simp only [spriteCells, List.mem_flatMap, List.mem_range] at h
  obtain ⟨dy, hdy, hc⟩ := h
  exact ⟨dy, hdy, hc⟩

theorem spriteCells_bounds {mem : List Nat} {i x y n : Nat} :
    ∀ c ∈ spriteCells mem i x y n, c < 2048 := by
  intro c hc
  obtain ⟨dy, _, hrow⟩ := mem_spriteCells hc
  obtain ⟨dx, _, rfl⟩ := mem_rowCells hrow
  exact cellIndex_lt x y dy dx

theorem cellIndex_inj {x y dy1 dx1 dy2 dx2 : Nat} (h1 : dy1 < 16) (h2 : dy2 < 16)
    (h3 : dx1 < 8) (h4 : dx2 < 8)
    (h : cellIndex x y dy1 dx1 = cellIndex x y dy2 dx2) : dy1 = dy2 ∧ dx1 = dx2 := by
  unfold cellIndex at h
  have b1 : (y + dy1) % 32 < 32 := Nat.mod_lt _ (by norm_num)
  have b2 : (y + dy2) % 32 < 32 := Nat.mod_lt _ (by norm_num)
  have b3 : (x + dx1) % 64 < 64 := Nat.mod_lt _ (by norm_num)
  have b4 : (x + dx2) % 64 < 64 := Nat.mod_lt _ (by norm_num)
  omega

theorem rowCells_nodup (mem : List Nat) (i x y dy : Nat) (hdy : dy < 16) :
    (rowCells mem i x y dy).Nodup := by
  refine List.Nodup.map_on ?_ ((List.nodup_range 8).filter _)
  intro a ha b hb hab
  simp only [List.mem_filter, List.mem_range] at ha hb
  exact (cellIndex_inj hdy hdy ha.1 hb.1 hab).2

theorem spriteCells_nodup (mem : List Nat) (i x y : Nat) :
    ∀ n, n ≤ 16 → (spriteCells mem i x y n).Nodup := by
  intro n
  induction n with
  | zero => intro _; simp [spriteCells]
  | succ m ih =>
    intro hm
    have hstep : spriteCells mem i x y (m + 1)
        = spriteCells mem i x y m ++ rowCells mem i x y m := by
      rw [spriteCells, List.range_succ, List.flatMap_append]
      simp [List.flatMap_cons, spriteCells]
    rw [hstep]
    refine List.Nodup.append (ih (by omega)) (rowCells_nodup mem i x y m (by omega)) ?_
    intro c hc1 hc2
    obtain ⟨dy, hdy, hrow⟩ := mem_spriteCells hc1
    obtain ⟨dx, hdx, rfl⟩ := mem_rowCells hrow
    obtain ⟨dx2, hdx2, heq⟩ := mem_rowCells hc2
    have := cellIndex_inj (by omega) (by omega) hdx hdx2 heq
    omega

open Chip8Emulator in
/-- Claim C1: executing the draw instruction twice at the same position
(same sprite memory, same coordinate registers, selectors distinct from
VF) with no intervening mutation restores every framebuffer pixel to its
value before the first draw, and the second draw leaves VF = 1 exactly
when some pixel affected by the sprite was on after the first draw; the
registers other than VF, memory, pc, I and the stack are untouched. -/
theorem draw_round_trip (s : Chip8Emulator) (xr yr n j : Nat)
    (hw : s.gfx.width = 64) (hlen : s.gfx.display.length = 2048)
    (hV : s.V.length = 16) (hn : n ≤ 16) (hxr : xr ≠ 15) (hyr : yr ≠ 15)
    (hj : j ≠ 15) :
    (draw_sprite (draw_sprite s xr yr n) xr yr n).gfx.display = s.gfx.display ∧
    ((draw_sprite (draw_sprite s xr yr n) xr yr n).V.getD 15 0
      = if (spriteCells s.memory s.I (s.V.getD xr 0 % 64) (s.V.getD yr 0 % 32) n).any
            (fun c => (draw_sprite s xr yr n).gfx.display.getD c false) = true
        then 1 else 0) ∧
    (draw_sprite (draw_sprite s xr yr n) xr yr n).V.getD j 0 = s.V.getD j 0 ∧
    (draw_sprite (draw_sprite s xr yr n) xr yr n).memory = s.memory ∧
    (draw_sprite (draw_sprite s xr yr n) xr yr n).pc = s.pc ∧
    (draw_sprite (draw_sprite s xr yr n) xr yr n).I = s.I ∧
    (draw_sprite (draw_sprite s xr yr n) xr yr n).stack = s.stack := by
  have hgetne : ∀ (l : List Nat) (v j2 : Nat), j2 ≠ 15 → (l.set 15 v).getD j2 0 = l.getD j2 0 :=
    fun l v j2 hj2 => getD_set_ne _ _ (fun he => hj2 he.symm)
  have h1 : draw_sprite s xr yr n
      = toggleCells { s with V := s.V.set 15 0 }
          (spriteCells s.memory s.I (s.V.getD xr 0 % 64) (s.V.getD yr 0 % 32) n) :=
    draw_sprite_eq s xr yr n hw
  have hnd : (spriteCells s.memory s.I (s.V.getD xr 0 % 64) (s.V.getD yr 0 % 32) n).Nodup :=
    spriteCells_nodup s.memory s.I _ _ n hn
  have hL0 : ({ s with V := s.V.set 15 0 } : Chip8Emulator).gfx.display.length = 2048 := hlen
  have hbd0 : ∀ c ∈ spriteCells s.memory s.I (s.V.getD xr 0 % 64) (s.V.getD yr 0 % 32) n,
      c < ({ s with V := s.V.set 15 0 } : Chip8Emulator).gfx.display.length := by
    intro c hc
    have hb := spriteCells_bounds c hc
    omega
  obtain ⟨len1, disp1, V1⟩ :=
    toggleCells_spec (spriteCells s.memory s.I (s.V.getD xr 0 % 64) (s.V.getD yr 0 % 32) n)
      { s with V := s.V.set 15 0 } hnd hbd0
  have hm1 : (draw_sprite s xr yr n).memory = s.memory := by
    rw [h1, toggleCells_memory]
  have hI1 : (draw_sprite s xr yr n).I = s.I := by
    rw [h1, toggleCells_I]
  have hpc1 : (draw_sprite s xr yr n).pc = s.pc := by
    rw [h1, toggleCells_pc]
  have hst1 : (draw_sprite s xr yr n).stack = s.stack := by
    rw [h1, toggleCells_stack]
  have hw1 : (draw_sprite s xr yr n).gfx.width = 64 := by
    rw [h1, toggleCells_width]; exact hw
  have hlen1 : (draw_sprite s xr yr n).gfx.display.length = 2048 := by
    rw [h1, len1]; exact hlen
  have V1' : (draw_sprite s xr yr n).V
      = if (spriteCells s.memory s.I (s.V.getD xr 0 % 64) (s.V.getD yr 0 % 32) n).any
            (fun c => s.gfx.display.getD c false) = true
        then (s.V.set 15 0).set 15 1 else s.V.set 15 0 := by
    rw [h1]; exact V1
  have hVxr : (draw_sprite s xr yr n).V.getD xr 0 = s.V.getD xr 0 := by
    rw [V1']
    split
    · rw [hgetne _ _ _ hxr, hgetne _ _ _ hxr]
    · rw [hgetne _ _ _ hxr]
  have hVyr : (draw_sprite s xr yr n).V.getD yr 0 = s.V.getD yr 0 := by
    rw [V1']
    split
    · rw [hgetne _ _ _ hyr, hgetne _ _ _ hyr]
    · rw [hgetne _ _ _ hyr]
  have hVj1 : (draw_sprite s xr yr n).V.getD j 0 = s.V.getD j 0 := by
    rw [V1']
    split
    · rw [hgetne _ _ _ hj, hgetne _ _ _ hj]
    · rw [hgetne _ _ _ hj]
  have hVlen1 : (draw_sprite s xr yr n).V.length = 16 := by
    rw [V1']
    split <;> simp [List.length_set, hV]
  have disp1' : ∀ idx, (draw_sprite s xr yr n).gfx.display.getD idx false
      = if idx ∈ spriteCells s.memory s.I (s.V.getD xr 0 % 64) (s.V.getD yr 0 % 32) n
        then !(s.gfx.display.getD idx false) else s.gfx.display.getD idx false := by
    intro idx
    rw [h1]; exact disp1 idx
  have h2 : draw_sprite (draw_sprite s xr yr n) xr yr n
      = toggleCells { draw_sprite s xr yr n with V := (draw_sprite s xr yr n).V.set 15 0 }
          (spriteCells s.memory s.I (s.V.getD xr 0 % 64) (s.V.getD yr 0 % 32) n) := by
    rw [draw_sprite_eq (draw_sprite s xr yr n) xr yr n hw1]
    congr 1
    rw [hm1, hI1, hVxr, hVyr]
  have hL1 : ({ draw_sprite s xr yr n with
      V := (draw_sprite s xr yr n).V.set 15 0 } : Chip8Emulator).gfx.display.length = 2048 :=
    hlen1
  have hbd1 : ∀ c ∈ spriteCells s.memory s.I (s.V.getD xr 0 % 64) (s.V.getD yr 0 % 32) n,
      c < ({ draw_sprite s xr yr n with
        V := (draw_sprite s xr yr n).V.set 15 0 } : Chip8Emulator).gfx.display.length := by
    intro c hc
    have hb := spriteCells_bounds c hc
    omega
  obtain ⟨len2, disp2, V2⟩ :=
    toggleCells_spec (spriteCells s.memory s.I (s.V.getD xr 0 % 64) (s.V.getD yr 0 % 32) n)
      { draw_sprite s xr yr n with V := (draw_sprite s xr yr n).V.set 15 0 } hnd hbd1
  have disp2' : ∀ idx, (draw_sprite (draw_sprite s xr yr n) xr yr n).gfx.display.getD idx false
      = if idx ∈ spriteCells s.memory s.I (s.V.getD xr 0 % 64) (s.V.getD yr 0 % 32) n
        then !((draw_sprite s xr yr n).gfx.display.getD idx false)
        else (draw_sprite s xr yr n).gfx.display.getD idx false := by
    intro idx
    rw [h2]; exact disp2 idx
  have V2' : (draw_sprite (draw_sprite s xr yr n) xr yr n).V
      = if (spriteCells s.memory s.I (s.V.getD xr 0 % 64) (s.V.getD yr 0 % 32) n).any
            (fun c => (draw_sprite s xr yr n).gfx.display.getD c false) = true
        then ((draw_sprite s xr yr n).V.set 15 0).set 15 1
        else (draw_sprite s xr yr n).V.set 15 0 := by
    rw [h2]; exact V2
  have hdisp : ∀ idx, (draw_sprite (draw_sprite s xr yr n) xr yr n).gfx.display.getD idx false
      = s.gfx.display.getD idx false := by
    intro idx
    rw [disp2' idx]
    by_cases hmem : idx ∈ spriteCells s.memory s.I (s.V.getD xr 0 % 64) (s.V.getD yr 0 % 32) n
    · rw [if_pos hmem, disp1' idx, if_pos hmem, Bool.not_not]
    · rw [if_neg hmem, disp1' idx, if_neg hmem]
  have hlen2 : (draw_sprite (draw_sprite s xr yr n) xr yr n).gfx.display.length = 2048 := by
    rw [h2, len2]; exact hlen1
  refine ⟨?_, ?_, ?_, ?_, ?_, ?_, ?_⟩
  · refine List.ext_getElem (by rw [hlen2, hlen]) ?_
    intro i hi1 hi2
    have hd := hdisp i
    rw [List.getD_eq_getElem _ false hi1, List.getD_eq_getElem _ false hi2] at hd
    exact hd
  · rw [V2']
    by_cases hA : (spriteCells s.memory s.I (s.V.getD xr 0 % 64) (s.V.getD yr 0 % 32) n).any
        (fun c => (draw_sprite s xr yr n).gfx.display.getD c false) = true
    · rw [if_pos hA, if_pos hA]
      exact getD_set_eq _ _ (by rw [List.length_set, hVlen1]; norm_num)
    · rw [if_neg hA, if_neg hA]
      exact getD_set_eq _ _ (by rw [hVlen1]; norm_num)
  · rw [V2']
    split
    · rw [hgetne _ _ _ hj, hgetne _ _ _ hj, hVj1]
    · rw [hgetne _ _ _ hj, hVj1]
  · rw [h2, toggleCells_memory]; exact hm1
  · rw [h2, toggleCells_pc]; exact hpc1
  · rw [h2, toggleCells_I]; exact hI1
  · rw [h2, toggleCells_stack]; exact hst1

set_option maxRecDepth 40000 in
open Chip8Emulator in
/-- Witness for C1: the sprite scenario of the repository's own draw
test — three rows 0xF0, 0x0F, 0xAA drawn twice at (10, 10). -/
theorem draw_round_trip_witness :
    (draw_sprite (draw_sprite sampleDrawState 0 1 3) 0 1 3).gfx.display
        = sampleDrawState.gfx.display ∧
    ((draw_sprite (draw_sprite sampleDrawState 0 1 3) 0 1 3).V.getD 15 0
      = if (spriteCells sampleDrawState.memory sampleDrawState.I
            (sampleDrawState.V.getD 0 0 % 64) (sampleDrawState.V.getD 1 0 % 32) 3).any
            (fun c => (draw_sprite sampleDrawState 0 1 3).gfx.display.getD c false) = true
        then 1 else 0) ∧
    (draw_sprite (draw_sprite sampleDrawState 0 1 3) 0 1 3).V.getD 2 0
        = sampleDrawState.V.getD 2 0 ∧
    (draw_sprite (draw_sprite sampleDrawState 0 1 3) 0 1 3).memory
        = sampleDrawState.memory ∧
    (draw_sprite (draw_sprite sampleDrawState 0 1 3) 0 1 3).pc = sampleDrawState.pc ∧
    (draw_sprite (draw_sprite sampleDrawState 0 1 3) 0 1 3).I = sampleDrawState.I ∧
    (draw_sprite (draw_sprite sampleDrawState 0 1 3) 0 1 3).stack = sampleDrawState.stack :=
  draw_round_trip sampleDrawState 0 1 3 2 rfl rfl rfl (by decide) (by decide) (by decide)
    (by decide)

end Chip8
